import Mathlib

/-
Verification of the Cox trade-war survival application (`cox_model.py`).

The script loads a CSV of bilateral trade-conflict episodes, prepares a
feature table, fits a Cox proportional-hazards model (via the external
`lifelines` library), and renders three views: a cohort of up-to-10
terminated big-power conflicts, a bilateral drill-down, and a hypothetical
scenario.  This file shallowly embeds the data preparation, the cohort
selection, the drill-down filtering, the render decisions, and — modelled
from the specification, since `lifelines` is not part of the repository —
the fit/predict semantics, and proves the specified properties.
-/

namespace CoxTariffs

/-- One row of `df_episodes.csv`.  Columns that the script reads are kept;
nullable CSV cells are `Option`.  `start_date` is represented by the year it
parses to, since the script only ever uses `pd.to_datetime(...).dt.year`;
`start_year` is the raw CSV column used by the bilateral drill-down.
Numeric cells are rationals. -/
structure Episode where
  country_a : Option String
  country_b : Option String
  start_date : Option Int
  start_year : Option Int
  terminated : Option ℚ
  duration_months : Option ℚ
  number_of_measures : Option ℚ
  mean_duration_months : Option ℚ
  gdp_country_a : Option ℚ
deriving DecidableEq

/-- A pandas frame: rows tagged with their index in the raw table. -/
abbrev Table := List (ℕ × Episode)

/-- `pd.read_csv` produces a frame with a 0-based range index. -/
def loadTable (rows : List Episode) : Table := rows.enum

/-- Line 84: the declared covariates. -/
def features : List String :=
  ["gdp_country_a", "number_of_measures", "mean_duration_months"]

/-- Line 100: the numeric columns handed to `cph.fit`. -/
def model_cols : List String :=
  ["gdp_country_a", "number_of_measures", "mean_duration_months",
   "duration_months", "terminated"]

def duration_col : String := "duration_months"

def event_col : String := "terminated"

/-- Lines 91–93: the seven columns selected before `.dropna()` —
both country names, the three covariates, duration and event flag. -/
def requiredComplete (e : Episode) : Bool :=
  e.country_a.isSome && e.country_b.isSome &&
  e.gdp_country_a.isSome && e.number_of_measures.isSome &&
  e.mean_duration_months.isSome &&
  e.duration_months.isSome && e.terminated.isSome

/-- Lines 91–93: `data_model = data[cols].dropna().copy()`. -/
def dataModel (data : Table) : Table :=
  data.filter (fun p => requiredComplete p.2)

/-- Line 96: `data_model['label'] = country_a + " – " + country_b`. -/
def rowLabel (e : Episode) : String :=
  e.country_a.getD "" ++ " – " ++ e.country_b.getD ""

/-- One row of `data_model[model_cols]` as handed to `cph.fit`:
exactly the three covariates plus duration and event indicator. -/
structure FitRow where
  gdp_country_a : ℚ
  number_of_measures : ℚ
  mean_duration_months : ℚ
  duration_months : ℚ
  terminated : ℚ
deriving DecidableEq

/-- Projection of a (complete) prepared row to the five fit columns. -/
def toFitRow (e : Episode) : FitRow :=
  ⟨e.gdp_country_a.getD 0, e.number_of_measures.getD 0,
   e.mean_duration_months.getD 0, e.duration_months.getD 0,
   e.terminated.getD 0⟩

/-- Line 101: `data_model[model_cols]`, the frame passed to `cph.fit`. -/
def fitInput (data : Table) : List FitRow :=
  (dataModel data).map (fun p => toFitRow p.2)

/-- Modelled from the spec: the index of `cph.summary` (the coefficient
table) — lifelines is not in the repository's sources.  Per the spec the
fitted model holds one coefficient per covariate of the fit input, i.e.
the fit columns minus the declared duration and event columns, in stable
order. -/
def coefIndex : List String :=
  model_cols.filter (fun c => c != duration_col && c != event_col)

/-! ### Cohort view (lines 111–171) -/

/-- Line 114. -/
def big_players : List String :=
  ["United States of America", "India", "France", "United Kingdom",
   "Russia", "Canada", "Japan"]

/-- Line 117: `terminated_conflicts = data_model[data_model['terminated'] == 1].copy()`,
on an arbitrary prepared frame. -/
def terminatedOf (dm : Table) : Table :=
  dm.filter (fun p => decide (p.2.terminated = some 1))

def terminatedConflicts (data : Table) : Table :=
  terminatedOf (dataModel data)

/-- `sort_values('start_year')` key order: ascending, nulls last
(pandas `na_position='last'`). -/
def keyLe : Option Int → Option Int → Bool
  | some x, some y => decide (x ≤ y)
  | some _, none => true
  | none, some _ => false
  | none, none => true

/-- Line 120: the sort key of the cohort is the year of `start_date`. -/
def yearRel (a b : ℕ × Episode) : Prop :=
  keyLe a.2.start_date b.2.start_date = true

instance : DecidableRel yearRel := fun a b =>
  inferInstanceAs (Decidable (_ = true))

theorem keyLe_total (x y : Option Int) : keyLe x y = true ∨ keyLe y x = true := by
  cases x <;> cases y <;> simp [keyLe] <;> omega

theorem keyLe_trans {x y z : Option Int} (h1 : keyLe x y = true)
    (h2 : keyLe y z = true) : keyLe x z = true := by
  cases x <;> cases y <;> cases z <;> simp_all [keyLe] <;> omega

instance : IsTotal (ℕ × Episode) yearRel :=
  ⟨fun a b => keyLe_total a.2.start_date b.2.start_date⟩

instance : IsTrans (ℕ × Episode) yearRel :=
  ⟨fun _ _ _ hab hbc => keyLe_trans hab hbc⟩

/-- Lines 130–134: terminated conflicts initiated by the USA against a
big player (`country_b.isin(big_players)`; pandas `isin` is false on null). -/
def usaCandidatesOf (dm : Table) : Table :=
  (terminatedOf dm).filter (fun p =>
    decide (p.2.country_a = some "United States of America") &&
    (p.2.country_b.elim false (fun c => big_players.contains c)))

/-- Lines 130–137: `.sort_values('start_year').head(5)`. -/
def usaTerminatedOf (dm : Table) : Table :=
  (List.insertionSort yearRel (usaCandidatesOf dm)).take 5

def usa_terminated (data : Table) : Table :=
  usaTerminatedOf (dataModel data)

/-- Line 140: `remaining_needed = max(0, 10 - len(usa_terminated))`
(truncated ℕ subtraction is exactly `max(0, ·)`). -/
def remainingNeededOf (dm : Table) : ℕ :=
  10 - (usaTerminatedOf dm).length

def remaining_needed (data : Table) : ℕ :=
  remainingNeededOf (dataModel data)

/-- Lines 142–146: the frame being grouped — terminated conflicts between
big players, not initiated by the USA, excluding rows already selected
(`~index.isin(usa_terminated.index)`). -/
def backfillPoolOf (dm : Table) : Table :=
  (terminatedOf dm).filter (fun p =>
    (p.2.country_a.elim false (fun c => big_players.contains c)) &&
    !(decide (p.2.country_a = some "United States of America")) &&
    (p.2.country_b.elim false (fun c => big_players.contains c)) &&
    !(((usaTerminatedOf dm).map Prod.fst).contains p.1))

def backfillPool (data : Table) : Table :=
  backfillPoolOf (dataModel data)

/-- Predicate "row is initiated by `c`" (`groupby('country_a')` grouping). -/
def byInit (c : String) (p : ℕ × Episode) : Bool :=
  decide (p.2.country_a = some c)

/-- Byte-wise lexicographic comparison on character lists (Python string
order, used because pandas `groupby(sort=True)` sorts group keys). -/
def lexLe : List Char → List Char → Bool
  | [], _ => true
  | _ :: _, [] => false
  | a :: as, b :: bs => if a = b then lexLe as bs else decide (a < b)

def strRel (a b : String) : Prop := lexLe a.data b.data = true

instance : DecidableRel strRel := fun a b =>
  inferInstanceAs (Decidable (_ = true))

/-- The group keys of `groupby('country_a')`: the distinct non-null
initiator names, in sorted order (null keys are dropped by pandas, and
here never occur: the pool filter already requires a big-power initiator). -/
def groupKeysOf (t : Table) : List String :=
  List.insertionSort strRel ((t.filterMap (fun p => p.2.country_a)).dedup)

/-- Line 147: `.groupby('country_a', group_keys=False).apply(lambda g: g.head(2))`
— for each initiator group, in group-key order, the first two rows of the
group in the pool's own order. -/
def otherBigpowerOf (dm : Table) : Table :=
  (groupKeysOf (backfillPoolOf dm)).flatMap
    (fun c => ((backfillPoolOf dm).filter (byInit c)).take 2)

def other_bigpower_conflicts (data : Table) : Table :=
  otherBigpowerOf (dataModel data)

/-- Line 150: `additional = other_bigpower_conflicts.head(remaining_needed)`. -/
def additionalOf (dm : Table) : Table :=
  (otherBigpowerOf dm).take (remainingNeededOf dm)

def additional (data : Table) : Table :=
  additionalOf (dataModel data)

/-- Line 153: `final_set = pd.concat([usa_terminated, additional])`. -/
def finalSetOf (dm : Table) : Table :=
  usaTerminatedOf dm ++ additionalOf dm

def final_set (data : Table) : Table :=
  finalSetOf (dataModel data)

/-! ### Render decisions (lines 156–171, 228–250) -/

/-- The outcome of a view: either a plot of the survival curves of the
given rows, or an explanatory no-data message. -/
inductive RenderOutcome where
  | plot (rows : Table)
  | noData (msg : String)
deriving DecidableEq

def cohort_empty_msg : String :=
  "⚠️ Aucun conflit terminé détecté parmi les grandes puissances."

def bilateral_empty_msg : String :=
  "⚠️ Aucune donnée disponible pour cette année de conflit."

/-- Lines 156–171: `if len(final_set) > 0: ...plot... else: st.markdown(...)`;
the loop plots one curve per row of `final_set`. -/
def cohortRender (data : Table) : RenderOutcome :=
  if (final_set data).length > 0 then .plot (final_set data)
  else .noData cohort_empty_msg

/-! ### Bilateral drill-down (lines 193–250) -/

/-- Lines 193–196: all episodes between the chosen pair. -/
def filtered_conflicts (data : Table) (init tgt : String) : Table :=
  data.filter (fun p =>
    decide (p.2.country_a = some init) && decide (p.2.country_b = some tgt))

/-- Lines 213–216: the five `required_cols`. -/
def requiredColsComplete (e : Episode) : Bool :=
  e.gdp_country_a.isSome && e.number_of_measures.isSome &&
  e.mean_duration_months.isSome &&
  e.duration_months.isSome && e.terminated.isSome

/-- Line 219: `valid_conflicts = filtered_conflicts.dropna(subset=required_cols).copy()`. -/
def valid_conflicts (data : Table) (init tgt : String) : Table :=
  (filtered_conflicts data init tgt).filter (fun p => requiredColsComplete p.2)

/-- Line 226: `conflict_row = valid_conflicts[valid_conflicts['start_year'] == selected_year]`
(the raw `start_year` column is present in the CSV, so line 222's guard does
not fire). -/
def conflict_row (data : Table) (init tgt : String) (yr : Int) : Table :=
  (valid_conflicts data init tgt).filter (fun p => decide (p.2.start_year = some yr))

/-- Lines 228–250: if a row matches, predict on all of `conflict_row` but
plot only column 0 (`surv_pred.iloc[:, 0]`), i.e. the first matching row;
otherwise render the no-data message. -/
def bilateralRender (data : Table) (init tgt : String) (yr : Int) : RenderOutcome :=
  if (conflict_row data init tgt yr).length > 0 then
    .plot ((conflict_row data init tgt yr).take 1)
  else .noData bilateral_empty_msg

/-! ### Script state (frame conditions) -/

/-- The top-level frames of the script that later stages read:
the raw table (line 78) and the prepared table (lines 91–96). -/
structure ScriptState where
  data : Table
  data_model : Table
deriving DecidableEq

def initState (data : Table) : ScriptState :=
  ⟨data, dataModel data⟩

/-- Lines 117–171 as a state transformer: `terminated_conflicts` is built
from a `.copy()` (line 117), and all later column writes (lines 120–127)
target that copy, so the step leaves both shared frames untouched. -/
def cohortStep (s : ScriptState) : ScriptState × RenderOutcome :=
  (⟨s.data, s.data_model⟩,
   if (finalSetOf s.data_model).length > 0 then .plot (finalSetOf s.data_model)
   else .noData cohort_empty_msg)

/-- Lines 193–250 as a state transformer: `filtered_conflicts` (line 196)
and `valid_conflicts` (line 219) are `.copy()`s of slices of the raw table,
so the step leaves both shared frames untouched. -/
def bilateralStep (s : ScriptState) (init tgt : String) (yr : Int) :
    ScriptState × RenderOutcome :=
  (⟨s.data, s.data_model⟩, bilateralRender s.data init tgt yr)

/-! ### Fit and prediction, modelled from the spec -/

/-- Number of observed events in the fit input (`terminated == 1`). -/
def numEvents (rows : List FitRow) : ℕ :=
  rows.countP (fun r => decide (r.terminated = 1))

/-- A constant covariate column. -/
def constantColumn (vals : List ℚ) : Prop :=
  ∀ x ∈ vals, ∀ y ∈ vals, x = y

/-- The three covariate columns of the fit input. -/
def covariateColumns (rows : List FitRow) : List (List ℚ) :=
  [rows.map (fun r => r.gdp_country_a),
   rows.map (fun r => r.number_of_measures),
   rows.map (fun r => r.mean_duration_months)]

/-- 3×3 minor of the covariate matrix taken at three rows. -/
def det3 (u v w : FitRow) : ℚ :=
  u.gdp_country_a * (v.number_of_measures * w.mean_duration_months -
    v.mean_duration_months * w.number_of_measures) -
  u.number_of_measures * (v.gdp_country_a * w.mean_duration_months -
    v.mean_duration_months * w.gdp_country_a) +
  u.mean_duration_months * (v.gdp_country_a * w.number_of_measures -
    v.number_of_measures * w.gdp_country_a)

/-- Rank deficiency of the n×3 covariate matrix: rank < 3 iff every 3×3
minor vanishes. -/
def rankDeficient (rows : List FitRow) : Prop :=
  ∀ u ∈ rows, ∀ v ∈ rows, ∀ w ∈ rows, det3 u v w = 0

/-- The spec's ill-posed-fit conditions: fewer events than covariates,
a constant covariate, or a rank-deficient covariate matrix. -/
def illConditioned (rows : List FitRow) : Prop :=
  numEvents rows < 3 ∨ (∃ col ∈ covariateColumns rows, constantColumn col) ∨
    rankDeficient rows

instance (rows : List FitRow) : Decidable (illConditioned rows) := by
  unfold illConditioned numEvents constantColumn covariateColumns rankDeficient
  infer_instance

inductive FitError where
  | illConditioned
deriving DecidableEq

/-- The fitted model, determined by the rows it was fitted on (the spec:
maximum partial-likelihood estimation has a unique optimum, so the model
is a function of the fit input). -/
structure FittedModel where
  rows : List FitRow
deriving DecidableEq

/-- Modelled from the spec: `CoxPHFitter.fit` (lifelines, not in src/)
raises on ill-conditioned input and otherwise produces the fitted model of
its input rows. -/
def cphFit (rows : List FitRow) : Except FitError FittedModel :=
  if illConditioned rows then .error .illConditioned else .ok ⟨rows⟩

/-- The render up to the coefficient table (lines 101–107): the script has
no exception handler, so a fit error propagates out of the render and no
fitted model reaches any downstream view. -/
def renderResults (data : Table) : Except FitError (List String) :=
  (cphFit (fitInput data)).map (fun _ => (dataModel data).map (fun p => rowLabel p.2))

/-- A covariate row handed to `predict_survival_function`. -/
structure Covariates where
  gdp_country_a : ℝ
  number_of_measures : ℝ
  mean_duration_months : ℝ

/-- Lines 269–273: the hypothetical scenario row built from the sliders. -/
def custom_input (gdp measures dur : ℝ) : Covariates :=
  ⟨gdp, measures, dur⟩

/-- `β · X` over the three covariates. -/
noncomputable def linearPredictor (β X : Covariates) : ℝ :=
  β.gdp_country_a * X.gdp_country_a +
    β.number_of_measures * X.number_of_measures +
    β.mean_duration_months * X.mean_duration_months

/-- Baseline cumulative hazard at grid index `i`: the sum of the first `i`
per-event-time hazard increments (Breslow estimator; grid index 0 is t=0
where no increment has accrued). -/
noncomputable def cumHazard (incs : List ℝ) (i : ℕ) : ℝ :=
  (incs.take i).sum

/-- Modelled from the spec: `predict_survival_function` (lifelines, not in
src/).  Spec §4.3: `S(t|X) = S0(t)^exp(β·X)` with `S0 = exp(-H)` the
estimated baseline survivor function, so the curve at grid index `i` is
`exp(-H(i) · exp(β·X))`. -/
noncomputable def survCurve (incs : List ℝ) (β X : Covariates) (i : ℕ) : ℝ :=
  Real.exp (-(cumHazard incs i) * Real.exp (linearPredictor β X))

/-! ### Concrete tables (witness data) -/

/-- A fully populated episode row. -/
def mkEp (a b : String) (sd sy : Int) (term dur nm md gdp : ℚ) : Episode :=
  ⟨some a, some b, some sd, some sy, some term, some dur, some nm, some md, some gdp⟩

def eUSAIndia : Episode := mkEp "United States of America" "India" 2010 2010 1 24 3 6 2

def eUSAChina : Episode := mkEp "United States of America" "China" 2018 2018 1 30 7 9 3

def eFranceJapan : Episode := mkEp "France" "Japan" 2005 2005 1 12 2 4 1

def eFranceCanada : Episode := mkEp "France" "Canada" 2003 2003 1 18 4 5 2

def eFranceRussia : Episode := mkEp "France" "Russia" 2001 2001 1 9 1 3 1

def eJapanIndia : Episode := mkEp "Japan" "India" 2012 2012 0 40 5 7 2

/-- A row dropped by `.dropna()`: missing GDP growth. -/
def eRussiaIncomplete : Episode :=
  { country_a := some "Russia", country_b := some "Canada", start_date := some 2015,
    start_year := some 2015, terminated := some 1, duration_months := some 10,
    number_of_measures := some 2, mean_duration_months := some 3,
    gdp_country_a := none }

/-- A small raw table exercising every selection branch: one USA cohort row,
one USA row against a non-big-power, a France initiator group of three whose
years are out of order, a censored row, and an incomplete row. -/
def dSample : Table := loadTable
  [eUSAIndia, eUSAChina, eFranceJapan, eFranceCanada, eFranceRussia,
   eJapanIndia, eRussiaIncomplete]

def eDupA : Episode := mkEp "France" "Japan" 2020 2020 1 12 2 4 1

def eDupB : Episode := mkEp "France" "Japan" 2020 2020 0 6 1 2 3

/-- Two distinct complete episodes between the same pair starting the same
year. -/
def dDup : Table := loadTable [eDupA, eDupB]

/-- A table whose only complete row is censored: zero observed events. -/
def dNoEvents : Table := loadTable [eDupB]

/-! ### Helper lemmas -/

theorem mem_dataModel {data : Table} {p : ℕ × Episode} :
    p ∈ dataModel data ↔ p ∈ data ∧ requiredComplete p.2 = true :=
  List.mem_filter

theorem mem_terminatedOf {dm : Table} {p : ℕ × Episode} :
    p ∈ terminatedOf dm ↔ p ∈ dm ∧ p.2.terminated = some 1 := by
  simp [terminatedOf, List.mem_filter]

theorem elim_contains_iff {o : Option String} {l : List String} :
    (o.elim false (fun c => l.contains c)) = true ↔ ∃ c, o = some c ∧ c ∈ l := by
  cases o <;> simp [Option.elim]

theorem mem_usaCandidatesOf {dm : Table} {p : ℕ × Episode} :
    p ∈ usaCandidatesOf dm ↔
      p ∈ terminatedOf dm ∧ p.2.country_a = some "United States of America" ∧
        (∃ c, p.2.country_b = some c ∧ c ∈ big_players) := by
  rw [usaCandidatesOf, List.mem_filter, Bool.and_eq_true, decide_eq_true_eq,
    elim_contains_iff]

theorem usaTerminatedOf_subset {dm : Table} {p : ℕ × Episode}
    (h : p ∈ usaTerminatedOf dm) : p ∈ usaCandidatesOf dm :=
  (List.mem_insertionSort yearRel).mp (List.mem_of_mem_take h)

theorem usaTerminatedOf_length (dm : Table) : (usaTerminatedOf dm).length ≤ 5 :=
  List.length_take_le 5 _

theorem usaTerminatedOf_sorted (dm : Table) :
    List.Sorted yearRel (usaTerminatedOf dm) :=
  List.Pairwise.sublist (List.take_sublist 5 _)
    (List.sorted_insertionSort yearRel (usaCandidatesOf dm))

theorem mem_backfillPoolOf {dm : Table} {p : ℕ × Episode} :
    p ∈ backfillPoolOf dm ↔
      p ∈ terminatedOf dm ∧
        (∃ c, p.2.country_a = some c ∧ c ∈ big_players) ∧
        ¬(p.2.country_a = some "United States of America") ∧
        (∃ c, p.2.country_b = some c ∧ c ∈ big_players) ∧
        p.1 ∉ (usaTerminatedOf dm).map Prod.fst := by
  rw [backfillPoolOf, List.mem_filter]
  simp only [Bool.and_eq_true, Bool.not_eq_true', decide_eq_false_iff_not,
    elim_contains_iff, and_assoc]
  constructor
  · rintro ⟨h1, h2, h3, h4, h5⟩
    refine ⟨h1, h2, h3, h4, ?_⟩
    simpa using h5
  · rintro ⟨h1, h2, h3, h4, h5⟩
    refine ⟨h1, h2, h3, h4, ?_⟩
    simpa using h5

theorem mem_groupKeysOf {t : Table} {c : String} :
    c ∈ groupKeysOf t ↔ ∃ p ∈ t, p.2.country_a = some c := by
  rw [groupKeysOf, List.mem_insertionSort, List.mem_dedup, List.mem_filterMap]

theorem groupKeysOf_nodup (t : Table) : (groupKeysOf t).Nodup :=
  (List.perm_insertionSort strRel _).symm.nodup (List.nodup_dedup _)

theorem mem_group_take {t : Table} {c : String} {p : ℕ × Episode}
    (h : p ∈ (t.filter (byInit c)).take 2) :
    p ∈ t ∧ p.2.country_a = some c := by
  have h' := List.mem_of_mem_take h
  rw [List.mem_filter] at h'
  exact ⟨h'.1, by simpa [byInit] using h'.2⟩

theorem filter_flatMap_groups (t : Table) (keys : List String)
    (hnd : keys.Nodup) (c : String) :
    (keys.flatMap (fun k => (t.filter (byInit k)).take 2)).filter (byInit c) =
      if c ∈ keys then (t.filter (byInit c)).take 2 else [] := by
  induction keys with
  | nil => simp
  | cons k ks ih =>
    obtain ⟨hk, hks⟩ := List.nodup_cons.mp hnd
    rw [List.flatMap_cons, List.filter_append, ih hks]
    by_cases hc : c = k
    · subst hc
      rw [if_pos (List.mem_cons_self c ks),
        List.filter_eq_self.mpr (fun p hp => by
          simp [byInit, (mem_group_take hp).2]),
        if_neg hk, List.append_nil]
    · rw [List.filter_eq_nil_iff.mpr (fun p hp => by
        simp only [byInit, decide_eq_true_eq, (mem_group_take hp).2,
          Option.some.injEq]
        exact fun h => hc (h.symm)), List.nil_append]
      by_cases hcks : c ∈ ks
      · rw [if_pos hcks, if_pos (List.mem_cons_of_mem k hcks)]
      · rw [if_neg hcks, if_neg (by
          rw [List.mem_cons]
          exact fun h => h.elim hc hcks)]

/-- The per-initiator content of the grouped backfill frame: for every
initiator `c` it holds exactly the first two pool rows initiated by `c`,
in the pool's own order. -/
theorem filter_otherBigpowerOf (dm : Table) (c : String) :
    (otherBigpowerOf dm).filter (byInit c) =
      ((backfillPoolOf dm).filter (byInit c)).take 2 := by
  rw [otherBigpowerOf,
    filter_flatMap_groups _ _ (groupKeysOf_nodup (backfillPoolOf dm)) c]
  by_cases h : c ∈ groupKeysOf (backfillPoolOf dm)
  · rw [if_pos h]
  · rw [if_neg h, List.filter_eq_nil_iff.mpr (fun p hp => by
      simp only [byInit, decide_eq_true_eq]
      exact fun hpc => h (mem_groupKeysOf.mpr ⟨p, hp, hpc⟩))]
    rfl

theorem mem_otherBigpowerOf {dm : Table} {p : ℕ × Episode}
    (h : p ∈ otherBigpowerOf dm) : p ∈ backfillPoolOf dm := by
  rw [otherBigpowerOf, List.mem_flatMap] at h
  obtain ⟨c, _, hp⟩ := h
  exact (mem_group_take hp).1

theorem mem_additionalOf {dm : Table} {p : ℕ × Episode}
    (h : p ∈ additionalOf dm) : p ∈ backfillPoolOf dm :=
  mem_otherBigpowerOf (List.mem_of_mem_take h)

theorem additionalOf_filter_le (dm : Table) (c : String) :
    ((additionalOf dm).filter (byInit c)).length ≤ 2 := by
  have h1 : ((additionalOf dm).filter (byInit c)).Sublist
      ((otherBigpowerOf dm).filter (byInit c)) :=
    List.Sublist.filter _ (List.take_sublist _ _)
  have h2 := h1.length_le
  rw [filter_otherBigpowerOf] at h2
  exact le_trans h2 (List.length_take_le 2 _)

/-! ### Claim theorems -/

/-- Claim C4: feature preparation returns exactly the raw rows whose
`country_a`, `country_b`, three covariates, `duration_months` and
`terminated` are all non-null, keeps the identification columns, preserves
input order (the result is a sublist, hence also synthesizes no row), and
leaves none of the required fitting fields null in any prepared row. -/
theorem feature_preparation_exact (data : Table) :
    (∀ p, p ∈ dataModel data ↔ p ∈ data ∧ requiredComplete p.2 = true) ∧
    (dataModel data).Sublist data ∧
    (∀ p ∈ dataModel data,
      p.2.country_a.isSome = true ∧ p.2.country_b.isSome = true ∧
      p.2.gdp_country_a.isSome = true ∧ p.2.number_of_measures.isSome = true ∧
      p.2.mean_duration_months.isSome = true ∧
      p.2.duration_months.isSome = true ∧ p.2.terminated.isSome = true) := by
  refine ⟨fun p => mem_dataModel, List.filter_sublist data, ?_⟩
  intro p hp
  have h := (mem_dataModel.mp hp).2
  simp only [requiredComplete, Bool.and_eq_true] at h
  obtain ⟨⟨⟨⟨⟨⟨hA, hB⟩, hC⟩, hD⟩, hE⟩, hF⟩, hG⟩ := h
  exact ⟨hA, hB, hC, hD, hE, hF, hG⟩

theorem feature_preparation_exact_witness :
    ((0, eUSAIndia) ∈ dataModel dSample) ∧
    ((0, eUSAIndia) ∈ dSample ∧ requiredComplete (0, eUSAIndia).2 = true) ∧
    (0, eUSAIndia).2.country_a.isSome = true :=
  ⟨by decide,
   ((feature_preparation_exact dSample).1 (0, eUSAIndia)).mp (by decide),
   ((feature_preparation_exact dSample).2.2 (0, eUSAIndia) (by decide)).1⟩

/-- Claim C3: the fit receives exactly the three covariates plus
`duration_months` and `terminated` (identification columns excluded), one
fit row per prepared row, and the coefficient table is indexed by exactly
the 3 covariates in their declared stable order. -/
theorem fit_covariates_exact (data : Table) :
    coefIndex = features ∧ coefIndex.length = 3 ∧
    model_cols = features ++ [duration_col, event_col] ∧
    "country_a" ∉ model_cols ∧ "country_b" ∉ model_cols ∧
    "label" ∉ model_cols ∧
    (fitInput data).length = (dataModel data).length := by
  refine ⟨by decide, by decide, by decide, by decide, by decide, by decide, ?_⟩
  simp [fitInput]

/-- Claim C2: the cohort view takes at most 5 terminated USA-initiated
episodes against big players, sorted by start year ascending (nulls last);
backfill rows are terminated, big-power-initiated, not USA-initiated, not
already selected, at most 2 per initiator; and the combined selection has
at most 10 rows. -/
theorem cohort_selection_cap (data : Table) :
    (usa_terminated data).length ≤ 5 ∧
    (∀ p ∈ usa_terminated data,
        p.2.country_a = some "United States of America" ∧
        (∃ c, p.2.country_b = some c ∧ c ∈ big_players) ∧
        p.2.terminated = some 1) ∧
    List.Sorted yearRel (usa_terminated data) ∧
    (∀ p ∈ additional data,
        p.2.terminated = some 1 ∧
        ¬(p.2.country_a = some "United States of America") ∧
        (∃ c, p.2.country_a = some c ∧ c ∈ big_players) ∧
        p.1 ∉ (usa_terminated data).map Prod.fst) ∧
    (∀ c, ((additional data).filter (byInit c)).length ≤ 2) ∧
    (final_set data).length ≤ 10 := by
  simp only [usa_terminated, additional, final_set]
  refine ⟨usaTerminatedOf_length _, ?_, usaTerminatedOf_sorted _, ?_,
    fun c => additionalOf_filter_le _ c, ?_⟩
  · intro p hp
    obtain ⟨ht, ha, hb⟩ := mem_usaCandidatesOf.mp (usaTerminatedOf_subset hp)
    exact ⟨ha, hb, (mem_terminatedOf.mp ht).2⟩
  · intro p hp
    obtain ⟨ht, ha, hne, hb, hidx⟩ :=
      mem_backfillPoolOf.mp (mem_additionalOf hp)
    exact ⟨(mem_terminatedOf.mp ht).2, hne, ha, hidx⟩
  · have h1 : (finalSetOf (dataModel data)).length =
        (usaTerminatedOf (dataModel data)).length +
          (additionalOf (dataModel data)).length :=
      List.length_append _ _
    have h2 : (additionalOf (dataModel data)).length ≤
        remainingNeededOf (dataModel data) :=
      List.length_take_le _ _
    have h3 := usaTerminatedOf_length (dataModel data)
    have h4 : remainingNeededOf (dataModel data) =
        10 - (usaTerminatedOf (dataModel data)).length := rfl
    omega

theorem cohort_selection_cap_witness :
    ((0, eUSAIndia) ∈ usa_terminated dSample) ∧
    ((2, eFranceJapan) ∈ additional dSample) ∧
    (0, eUSAIndia).2.country_a = some "United States of America" ∧
    (2, eFranceJapan).2.terminated = some 1 ∧
    (final_set dSample).length ≤ 10 :=
  ⟨by decide, by decide,
   ((cohort_selection_cap dSample).2.1 (0, eUSAIndia) (by decide)).1,
   ((cohort_selection_cap dSample).2.2.2.1 (2, eFranceJapan) (by decide)).1,
   (cohort_selection_cap dSample).2.2.2.2.2⟩

/-- Claim C10: every backfill row's target is itself a big player; the
grouped backfill holds, per initiator, exactly the first two pool rows in
the pool's original order (no re-sort by start year); the USA rows are
sorted by start year — and the backfill need not be (witnessed on
`dSample`, whose France group arrives as 2005 then 2003). -/
theorem backfill_rows_structure (data : Table) :
    (∀ p ∈ additional data,
        ∃ c, p.2.country_b = some c ∧ c ∈ big_players) ∧
    (∀ c, (other_bigpower_conflicts data).filter (byInit c) =
        ((backfillPool data).filter (byInit c)).take 2) ∧
    List.Sorted yearRel (usa_terminated data) ∧
    ¬ List.Sorted yearRel (additional dSample) := by
  simp only [additional, other_bigpower_conflicts, backfillPool,
    usa_terminated]
  refine ⟨?_, fun c => filter_otherBigpowerOf _ c,
    usaTerminatedOf_sorted _, by decide⟩
  intro p hp
  exact (mem_backfillPoolOf.mp (mem_additionalOf hp)).2.2.2.1

theorem backfill_rows_structure_witness :
    ((2, eFranceJapan) ∈ additional dSample) ∧
    (∃ c, (2, eFranceJapan).2.country_b = some c ∧ c ∈ big_players) :=
  ⟨by decide,
   (backfill_rows_structure dSample).1 (2, eFranceJapan) (by decide)⟩

/-- Claim C6: when a selection is empty, each flow renders its explanatory
no-data message and makes no plot call (the render functions are total, so
no exception is modelled either). -/
theorem empty_selection_no_data (data : Table) (init tgt : String) (yr : Int) :
    (final_set data = [] →
      cohortRender data = .noData cohort_empty_msg ∧
      ∀ rows, ¬ (cohortRender data = .plot rows)) ∧
    (conflict_row data init tgt yr = [] →
      bilateralRender data init tgt yr = .noData bilateral_empty_msg ∧
      ∀ rows, ¬ (bilateralRender data init tgt yr = .plot rows)) := by
  constructor
  · intro h
    have hl : ¬ ((final_set data).length > 0) := by rw [h]; simp
    refine ⟨by rw [cohortRender, if_neg hl], ?_⟩
    intro rows hc
    rw [cohortRender, if_neg hl] at hc
    exact RenderOutcome.noConfusion hc
  · intro h
    have hl : ¬ ((conflict_row data init tgt yr).length > 0) := by rw [h]; simp
    refine ⟨by rw [bilateralRender, if_neg hl], ?_⟩
    intro rows hc
    rw [bilateralRender, if_neg hl] at hc
    exact RenderOutcome.noConfusion hc

theorem empty_selection_no_data_witness :
    (final_set ([] : Table) = [] ∧
      cohortRender [] = .noData cohort_empty_msg) ∧
    (conflict_row ([] : Table) "France" "Japan" 2020 = [] ∧
      bilateralRender [] "France" "Japan" 2020 = .noData bilateral_empty_msg) :=
  ⟨⟨rfl, ((empty_selection_no_data [] "France" "Japan" 2020).1 rfl).1⟩,
   ⟨rfl, ((empty_selection_no_data [] "France" "Japan" 2020).2 rfl).1⟩⟩

/-- Claim C7: on ill-conditioned fit input the (spec-modelled) fit raises,
the error propagates out of the render unchanged — the script has no
handler — and no fitted model is produced for downstream use. -/
theorem ill_conditioned_fit_surfaced (data : Table)
    (h : illConditioned (fitInput data)) :
    cphFit (fitInput data) = .error .illConditioned ∧
    renderResults data = .error .illConditioned ∧
    ∀ m, ¬ (cphFit (fitInput data) = .ok m) := by
  have he : cphFit (fitInput data) = .error .illConditioned := by
    rw [cphFit, if_pos h]
  refine ⟨he, ?_, ?_⟩
  · rw [renderResults, he]
    rfl
  · intro m hm
    rw [he] at hm
    exact Except.noConfusion hm

theorem ill_conditioned_fit_surfaced_witness :
    illConditioned (fitInput dNoEvents) ∧
    renderResults dNoEvents = .error .illConditioned :=
  ⟨Or.inl (by decide),
   (ill_conditioned_fit_surfaced dNoEvents (Or.inl (by decide))).2.1⟩

/-- Claim C5: the fit input is fully determined by the prepared table, so
any (deterministic, per the spec) fit function yields identical
coefficients on identical prepared rows; and the modelled predictor gives
identical curves on identical covariate rows. -/
theorem fit_prediction_deterministic (F : List FitRow → List ℝ)
    (d₁ d₂ : Table) (h : dataModel d₁ = dataModel d₂) :
    fitInput d₁ = fitInput d₂ ∧ F (fitInput d₁) = F (fitInput d₂) ∧
    ∀ (incs : List ℝ) (β X₁ X₂ : Covariates) (i : ℕ), X₁ = X₂ →
      survCurve incs β X₁ i = survCurve incs β X₂ i := by
  have hf : fitInput d₁ = fitInput d₂ := by rw [fitInput, fitInput, h]
  exact ⟨hf, congrArg F hf, fun incs β X₁ X₂ i hX => by rw [hX]⟩

theorem fit_prediction_deterministic_witness :
    dataModel dSample = dataModel dSample ∧
    fitInput dSample = fitInput dSample ∧
    survCurve [1] ⟨1, 1, 1⟩ (custom_input 2.3 15 8) 1 =
      survCurve [1] ⟨1, 1, 1⟩ (custom_input 2.3 15 8) 1 :=
  ⟨rfl,
   (fit_prediction_deterministic (fun _ => []) dSample dSample rfl).1,
   (fit_prediction_deterministic (fun _ => []) dSample dSample rfl).2.2
     [1] ⟨1, 1, 1⟩ (custom_input 2.3 15 8) (custom_input 2.3 15 8) 1 rfl⟩

/-- Claim C9: neither the raw table nor the prepared table is modified by
the selection steps (the source writes columns only on `.copy()`s), and
re-running any step on an equal raw table recomputes equal derivatives. -/
theorem no_inplace_mutation (data : Table) (init tgt : String) (yr : Int) :
    (cohortStep (initState data)).1 = initState data ∧
    (bilateralStep (initState data) init tgt yr).1 = initState data ∧
    ∀ d₂, data = d₂ →
      cohortStep (initState data) = cohortStep (initState d₂) ∧
      bilateralStep (initState data) init tgt yr =
        bilateralStep (initState d₂) init tgt yr := by
  refine ⟨rfl, rfl, ?_⟩
  intro d₂ h
  rw [h]
  exact ⟨rfl, rfl⟩

theorem no_inplace_mutation_witness :
    (cohortStep (initState dSample)).1 = initState dSample ∧
    cohortStep (initState dSample) = cohortStep (initState dSample) :=
  ⟨(no_inplace_mutation dSample "France" "Japan" 2020).1,
   ((no_inplace_mutation dSample "France" "Japan" 2020).2.2 dSample rfl).1⟩

theorem cumHazard_nonneg {incs : List ℝ} (h : ∀ x ∈ incs, 0 ≤ x) (i : ℕ) :
    0 ≤ cumHazard incs i :=
  List.sum_nonneg (fun x hx => h x (List.mem_of_mem_take hx))

theorem cumHazard_mono {incs : List ℝ} (h : ∀ x ∈ incs, 0 ≤ x) {i j : ℕ}
    (hij : i ≤ j) : cumHazard incs i ≤ cumHazard incs j := by
  obtain ⟨k, rfl⟩ := Nat.exists_eq_add_of_le hij
  rw [cumHazard, cumHazard, List.take_add, List.sum_append]
  have h0 : 0 ≤ (List.take k (List.drop i incs)).sum :=
    List.sum_nonneg
      (fun x hx => h x (List.mem_of_mem_drop (List.mem_of_mem_take hx)))
  linarith

/-- Claim C1: every curve the (spec-modelled) predictor produces — for any
covariate row, hence for the cohort, the selected episode and the
hypothetical scenario alike — starts at 1 on the first grid point, stays
within [0, 1], and is non-increasing along the event-time grid. -/
theorem survival_curve_shape (incs : List ℝ) (h : ∀ x ∈ incs, 0 ≤ x)
    (β X : Covariates) :
    survCurve incs β X 0 = 1 ∧
    (∀ i, 0 ≤ survCurve incs β X i ∧ survCurve incs β X i ≤ 1) ∧
    (∀ i j, i ≤ j → survCurve incs β X j ≤ survCurve incs β X i) := by
  refine ⟨?_, fun i => ⟨(Real.exp_pos _).le, ?_⟩, fun i j hij => ?_⟩
  · rw [survCurve]
    simp [cumHazard]
  · rw [survCurve]
    apply Real.exp_le_one_iff.mpr
    have h1 : 0 ≤ cumHazard incs i * Real.exp (linearPredictor β X) :=
      mul_nonneg (cumHazard_nonneg h i) (Real.exp_pos _).le
    rw [neg_mul]
    linarith
  · rw [survCurve, survCurve]
    apply Real.exp_le_exp.mpr
    have hc : (0 : ℝ) ≤ Real.exp (linearPredictor β X) := (Real.exp_pos _).le
    have hm := cumHazard_mono h hij
    rw [neg_mul, neg_mul, neg_le_neg_iff]
    exact mul_le_mul_of_nonneg_right hm hc

theorem survival_curve_shape_witness :
    (∀ x ∈ ([1, 2] : List ℝ), 0 ≤ x) ∧
    survCurve [1, 2] ⟨1, 1, 1⟩ (custom_input 2.3 15 8) 0 = 1 := by
  have hw : ∀ x ∈ ([1, 2] : List ℝ), 0 ≤ x := by
    intro x hx
    rcases List.mem_cons.mp hx with rfl | hx'
    · norm_num
    · rcases List.mem_cons.mp hx' with rfl | hx''
      · norm_num
      · exact absurd hx'' (List.not_mem_nil x)
  exact ⟨hw,
    (survival_curve_shape [1, 2] hw ⟨1, 1, 1⟩ (custom_input 2.3 15 8)).1⟩

/-- Claim C8 counterexample: two complete episodes between the same pair
starting the same year make `conflict_row` return two rows, so the
drill-down's year filter does not return "the unique matching row (or
none)". -/
theorem conflict_row_not_unique_counterexample :
    ¬ ((conflict_row dDup "France" "Japan" 2020).length ≤ 1) ∧
    (conflict_row dDup "France" "Japan" 2020).length = 2 := by
  exact ⟨by decide, by decide⟩

/-- Claim C8 (amended): the drill-down returns all episodes of the chosen
pair; the year filter returns all complete matching rows — possibly more
than one — and the view plots the survival curve of only the first of
them. -/
theorem bilateral_drilldown_matches (data : Table) (init tgt : String)
    (yr : Int) :
    (∀ p, p ∈ filtered_conflicts data init tgt ↔
        p ∈ data ∧ p.2.country_a = some init ∧ p.2.country_b = some tgt) ∧
    (∀ p, p ∈ conflict_row data init tgt yr ↔
        p ∈ data ∧ p.2.country_a = some init ∧ p.2.country_b = some tgt ∧
          requiredColsComplete p.2 = true ∧ p.2.start_year = some yr) ∧
    (conflict_row data init tgt yr ≠ [] →
      bilateralRender data init tgt yr =
        .plot ((conflict_row data init tgt yr).take 1)) := by
  refine ⟨fun p => ?_, fun p => ?_, fun h => ?_⟩
  · rw [filtered_conflicts, List.mem_filter, Bool.and_eq_true,
      decide_eq_true_eq, decide_eq_true_eq]
  · rw [conflict_row, valid_conflicts, filtered_conflicts]
    simp only [List.mem_filter, Bool.and_eq_true, decide_eq_true_eq]
    tauto
  · rw [bilateralRender, if_pos (List.length_pos.mpr h)]

theorem bilateral_drilldown_matches_witness :
    (conflict_row dDup "France" "Japan" 2020 ≠ []) ∧
    bilateralRender dDup "France" "Japan" 2020 =
      .plot ((conflict_row dDup "France" "Japan" 2020).take 1) :=
  ⟨by decide,
   (bilateral_drilldown_matches dDup "France" "Japan" 2020).2.2 (by decide)⟩

end CoxTariffs
